import Mathlib

/-!
Shallow embedding of the Bitkub DCA bot (src/dca_bot.py) and proofs about it.

Conventions of the embedding:
* Python byte strings are lists of naturals (each byte taken modulo 256 where produced).
* Python numbers (int, float) are embedded as integers and exact rationals; the
  comparisons the program performs on them are exact in CPython, so the rational
  model is faithful for every claim considered here.
* Module-level configuration globals (API_KEY, API_SECRET, DCA_AMOUNT, DCA_TIME,
  SYMBOL) become explicit parameters.
* A Python function that can raise is embedded with Except PyErr or with an
  explicit Outcome; the HTTP requests a workflow issues are recorded as a trace.
-/

/-- Word-size truncation for 32-bit arithmetic (mod 2 to the 32). -/
def w32 (x : ℕ) : ℕ := x % 4294967296

/-- 32-bit right rotation. -/
def rotr32 (r x : ℕ) : ℕ := w32 ((x >>> r) ||| (x <<< (32 - r)))

/-- Logical right shift. -/
def shr32 (r x : ℕ) : ℕ := x >>> r

/-- SHA-256 compression function Sigma0. -/
def bigSigma0 (x : ℕ) : ℕ := (rotr32 2 x) ^^^ (rotr32 13 x) ^^^ (rotr32 22 x)

/-- SHA-256 compression function Sigma1. -/
def bigSigma1 (x : ℕ) : ℕ := (rotr32 6 x) ^^^ (rotr32 11 x) ^^^ (rotr32 25 x)

/-- SHA-256 message-schedule function sigma0. -/
def smallSigma0 (x : ℕ) : ℕ := (rotr32 7 x) ^^^ (rotr32 18 x) ^^^ (shr32 3 x)

/-- SHA-256 message-schedule function sigma1. -/
def smallSigma1 (x : ℕ) : ℕ := (rotr32 17 x) ^^^ (rotr32 19 x) ^^^ (shr32 10 x)

/-- SHA-256 choice function. -/
def chFun (x y z : ℕ) : ℕ := (x &&& y) ^^^ ((x ^^^ 4294967295) &&& z)

/-- SHA-256 majority function. -/
def majFun (x y z : ℕ) : ℕ := (x &&& y) ^^^ (x &&& z) ^^^ (y &&& z)

/-- The 64 SHA-256 round constants. -/
def sha256K : List ℕ :=
  [1116352408, 1899447441, 3049323471, 3921009573, 961987163,
   1508970993, 2453635748, 2870763221, 3624381080, 310598401,
   607225278, 1426881987, 1925078388, 2162078206, 2614888103,
   3248222580, 3835390401, 4022224774, 264347078, 604807628,
   770255983, 1249150122, 1555081692, 1996064986, 2554220882,
   2821834349, 2952996808, 3210313671, 3336571891, 3584528711,
   113926993, 338241895, 666307205, 773529912, 1294757372,
   1396182291, 1695183700, 1986661051, 2177026350, 2456956037,
   2730485921, 2820302411, 3259730800, 3345764771, 3516065817,
   3600352804, 4094571909, 275423344, 430227734, 506948616,
   659060556, 883997877, 958139571, 1322822218, 1537002063,
   1747873779, 1955562222, 2024104815, 2227730452, 2361852424,
   2428436474, 2756734187, 3204031479, 3329325298]

/-- State of the SHA-256 compression: eight 32-bit words. -/
structure Sha8 where
  a : ℕ
  b : ℕ
  c : ℕ
  d : ℕ
  e : ℕ
  f : ℕ
  g : ℕ
  h : ℕ
deriving DecidableEq, Repr

/-- SHA-256 initial hash value. -/
def sha256H0 : Sha8 :=
  ⟨1779033703, 3144134277, 1013904242, 2773480762,
   1359893119, 2600822924, 528734635, 1541459225⟩

/-- One SHA-256 round with round constant kt and schedule word wt. -/
def sha256Round (s : Sha8) (kt wt : ℕ) : Sha8 :=
  let t1 := w32 (s.h + bigSigma1 s.e + chFun s.e s.f s.g + kt + wt)
  let t2 := w32 (bigSigma0 s.a + majFun s.a s.b s.c)
  ⟨w32 (t1 + t2), s.a, s.b, s.c, w32 (s.d + t1), s.e, s.f, s.g⟩

/-- Componentwise 32-bit addition of two compression states. -/
def sha8Add (x y : Sha8) : Sha8 :=
  ⟨w32 (x.a + y.a), w32 (x.b + y.b), w32 (x.c + y.c), w32 (x.d + y.d),
   w32 (x.e + y.e), w32 (x.f + y.f), w32 (x.g + y.g), w32 (x.h + y.h)⟩

/-- Extend a chunk of schedule words by n further words. -/
def sha256Extend : ℕ → Array ℕ → Array ℕ
  | 0, ws => ws
  | n + 1, ws =>
    let s := ws.size
    let nw := w32 (smallSigma1 (ws.getD (s - 2) 0) + ws.getD (s - 7) 0 +
                   smallSigma0 (ws.getD (s - 15) 0) + ws.getD (s - 16) 0)
    sha256Extend n (ws.push nw)

/-- Process one 16-word chunk of the padded message. -/
def sha256Chunk (st : Sha8) (chunk : List ℕ) : Sha8 :=
  let ws := (sha256Extend 48 (Array.mk chunk)).toList
  let rounds := (sha256K.zip ws).foldl (fun s p => sha256Round s p.1 p.2) st
  sha8Add st rounds

/-- Big-endian 8-byte encoding of a natural number. -/
def be64 (n : ℕ) : List ℕ :=
  [(n >>> 56) % 256, (n >>> 48) % 256, (n >>> 40) % 256, (n >>> 32) % 256,
   (n >>> 24) % 256, (n >>> 16) % 256, (n >>> 8) % 256, n % 256]

/-- SHA-256 message padding: append 0x80, zeros, and the 64-bit bit length. -/
def sha256Pad (msg : List ℕ) : List ℕ :=
  let L := msg.length
  msg ++ [128] ++ List.replicate ((119 - (L % 64)) % 64) 0 ++ be64 (8 * L)

/-- Group a byte list into big-endian 32-bit words (length assumed divisible by 4). -/
def bytesToWords : List ℕ → List ℕ
  | a :: b :: c :: d :: rest =>
    (a * 16777216 + b * 65536 + c * 256 + d) :: bytesToWords rest
  | _ => []

/-- Split a word list into chunks of 16 words. -/
def chunks16 (ws : List ℕ) : List (List ℕ) :=
  if _h : ws = [] then []
  else ws.take 16 :: chunks16 (ws.drop 16)
termination_by ws.length
decreasing_by
  simp only [List.length_drop]
  have : ws.length ≠ 0 := fun hl => _h (List.length_eq_zero.mp hl)
  omega

/-- Serialize the compression state to 32 output bytes, big endian. -/
def sha8Bytes (s : Sha8) : List ℕ :=
  [s.a, s.b, s.c, s.d, s.e, s.f, s.g, s.h].map
    (fun x => [(x >>> 24) % 256, (x >>> 16) % 256, (x >>> 8) % 256, x % 256])
  |>.flatten

/-- SHA-256 of a byte string, as 32 bytes. -/
def sha256 (msg : List ℕ) : List ℕ :=
  sha8Bytes ((chunks16 (bytesToWords (sha256Pad msg))).foldl sha256Chunk sha256H0)

/-- HMAC-SHA256 per RFC 2104 (block size 64), as 32 bytes. -/
def hmacSha256 (key msg : List ℕ) : List ℕ :=
  let k1 := if key.length > 64 then sha256 key else key
  let k2 := k1 ++ List.replicate (64 - k1.length) 0
  sha256 ((k2.map (fun b => b ^^^ 92)) ++ sha256 ((k2.map (fun b => b ^^^ 54)) ++ msg))

/-- One lowercase hexadecimal digit for n modulo 16. -/
def hexDigitAux (m : ℕ) : Char :=
  if m < 10 then Char.ofNat (48 + m) else Char.ofNat (87 + m)

/-- Lowercase hex digit of n modulo 16. -/
def hexDigitChar (n : ℕ) : Char := hexDigitAux (n % 16)

/-- Two lowercase hex digits of a byte. -/
def byteToHex (b : ℕ) : List Char := [hexDigitChar (b / 16), hexDigitChar b]

/-- Lowercase hexadecimal rendering of a byte string (Python hexdigest). -/
def bytesToHex (bs : List ℕ) : String := String.mk ((bs.map byteToHex).flatten)

/-- UTF-8 encoding of a string, as a byte list (Python str.encode utf-8). -/
def utf8Bytes (s : String) : List ℕ := s.toUTF8.toList.map (fun b => b.toNat)

/-- Embedding of get_signature (src/dca_bot.py lines 42-50): format the message
by concatenating the timestamp, method, path and payload, then produce the
hex digest of HMAC-SHA256 keyed with the UTF-8 bytes of the API secret. -/
def get_signature (API_SECRET : String) (timestamp : ℤ)
    (method : String) (path : String) (payload : String := "") : String :=
  let message := toString timestamp ++ method ++ path ++ payload
  bytesToHex (hmacSha256 (utf8Bytes API_SECRET) (utf8Bytes message))

/-- The sixteen lowercase hex digit characters. -/
def lowerHexChars : List Char := "0123456789abcdef".toList

theorem hexDigitAux_mem (m : ℕ) (hm : m < 16) : lowerHexChars.contains (hexDigitAux m) = true := by
  interval_cases m <;> decide

theorem hexDigitChar_mem (n : ℕ) : lowerHexChars.contains (hexDigitChar n) = true :=
  hexDigitAux_mem (n % 16) (Nat.mod_lt _ (by norm_num))

theorem hexList_lower (bs : List ℕ) :
    ((bs.map byteToHex).flatten).all (fun c => lowerHexChars.contains c) = true := by
  induction bs with
  | nil => rfl
  | cons b rest ih =>
    simp only [List.map_cons, List.flatten_cons, List.all_append, Bool.and_eq_true]
    refine ⟨?_, ih⟩
    simp only [byteToHex, List.all_cons, List.all_nil, Bool.and_eq_true]
    exact ⟨hexDigitChar_mem _, hexDigitChar_mem _, trivial⟩

theorem bytesToHex_lower (bs : List ℕ) :
    (bytesToHex bs).toList.all (fun c => lowerHexChars.contains c) = true :=
  hexList_lower bs

/-- JSON values, the shape of every parsed HTTP response body and of the
payloads the bot builds. Python int and float are kept apart because
json.dumps renders them differently; floats are exact rationals. -/
inductive JValue where
  | null
  | bool (b : Bool)
  | int (n : ℤ)
  | float (q : ℚ)
  | str (s : String)
  | arr (items : List JValue)
  | obj (fields : List (String × JValue))

/-- The Python exceptions the embedded code can raise. -/
inductive PyErr where
  | attributeError
  | typeError
  | valueError
deriving DecidableEq, Repr

/-- First-match association lookup (dict keys are unique, so this is dict lookup). -/
def assocLookup : List (String × JValue) → String → Option JValue
  | [], _ => none
  | (k, v) :: rest, key => if k = key then some v else assocLookup rest key

/-- Python dict.get(key, default): raises AttributeError on a non-dict receiver. -/
def pyGet (v : JValue) (key : String) (dflt : JValue) : Except PyErr JValue :=
  match v with
  | .obj fs => .ok ((assocLookup fs key).getD dflt)
  | _ => .error .attributeError

/-- Python equality test against the int 0 (True for 0, 0.0 and False). -/
def pyEqZero : JValue → Bool
  | .int n => n == 0
  | .float q => q == 0
  | .bool b => !b
  | _ => false

/-- The exception the format spec ,.2f raises on a non-number (line 137):
ValueError on a string, TypeError on null, lists and dicts. -/
def formatNumErr : JValue → PyErr
  | .str _ => .valueError
  | _ => .typeError

/-- The exact rational value of a Python number (bool counts as an int). -/
def pyNum? : JValue → Option ℚ
  | .int n => some n
  | .float q => some q
  | .bool b => some (if b then 1 else 0)
  | _ => none

/-- The float(...) builtin; parseFloat stands for its string-parsing behaviour. -/
def pyFloat (parseFloat : String → Option ℚ) : JValue → Except PyErr ℚ
  | .int n => .ok n
  | .float q => .ok q
  | .bool b => .ok (if b then 1 else 0)
  | .str s =>
    match parseFloat s with
    | some q => .ok q
    | none => .error .valueError
  | _ => .error .typeError

/-- Substring containment of needle in hay (the Python in operator on str). -/
def containsSub (needle : List Char) : List Char → Bool
  | [] => needle.isEmpty
  | c :: t => needle.isPrefixOf (c :: t) || containsSub needle t

/-- The Python in operator with a string needle (line 87): substring test on
a string, membership by equality on a list, key membership on a dict; numbers,
booleans and null are not containers, so the test raises TypeError. -/
def pyInStr (needle : String) : JValue → Except PyErr Bool
  | .str s => .ok (containsSub needle.toList s.toList)
  | .arr xs =>
    .ok (xs.any (fun it =>
      match it with
      | .str s => decide (s = needle)
      | _ => false))
  | .obj gs => .ok ((assocLookup gs needle).isSome)
  | _ => .error .typeError

/-- Scan of the list branch of get_ticker (lines 84-88): the first element
whose symbol value contains BTC is wrapped as a one-key THB_BTC object; a
non-dict element, or a symbol value that is no container of the in operator,
raises before the scan can go on. -/
def tickerScan : List JValue → Except PyErr JValue
  | [] => .ok (.obj [])
  | item :: rest =>
    match item with
    | .obj fs =>
      match pyInStr "BTC" ((assocLookup fs "symbol").getD (.str "")) with
      | .error e => .error e
      | .ok b => if b then .ok (.obj [("THB_BTC", item)]) else tickerScan rest
    | _ => .error .attributeError

/-- Embedding of get_ticker (lines 78-92) applied to the parsed response body:
a list is scanned for a BTC symbol, a dict is returned unchanged, anything
else becomes the empty dict. -/
def get_ticker (data : JValue) : Except PyErr JValue :=
  match data with
  | .arr items => tickerScan items
  | .obj _ => .ok data
  | _ => .ok (.obj [])

/-- The HTTP requests execute_dca can issue, with the order amount recorded. -/
inductive ApiCall where
  | balanceQuery
  | tickerQuery
  | placeOrder (amt : ℚ)
deriving DecidableEq, Repr

/-- How one invocation of execute_dca ends: a normal return or an exception. -/
inductive Outcome where
  | returned
  | raised (e : PyErr)
deriving DecidableEq, Repr

/-- One invocation of execute_dca: the requests it issued, in order, and its end. -/
structure DcaRun where
  trace : List ApiCall
  outcome : Outcome
deriving DecidableEq, Repr

/-- The price-logging block of execute_dca (lines 144-147): when the ticker
dict has the THB_BTC key, float(ticker key .get last 0) is computed, which can
raise; otherwise the block is skipped. The non-dict case cannot be reached
from get_ticker output. -/
def dcaTickerLog (parseFloat : String → Option ℚ) (ticker : JValue) : Except PyErr Unit :=
  match ticker with
  | .obj fs =>
    match assocLookup fs "THB_BTC" with
    | some item =>
      match pyGet item "last" (.int 0) with
      | .error e => .error e
      | .ok lastv =>
        match pyFloat parseFloat lastv with
        | .error e => .error e
        | .ok _ => .ok ()
    | none => .ok ()
  | _ => .error .typeError

/-- The order-result logging block of execute_dca (lines 153-173): on success
four .get calls hit the inner result (raising on a non-dict); on failure the
error code is looked up in the message dict, raising if it is unhashable. -/
def dcaOrderLog (result : JValue) : Outcome :=
  match pyGet result "error" (.int 1) with
  | .error e => .raised e
  | .ok errv =>
    if pyEqZero errv then
      match pyGet result "result" (.obj []) with
      | .error e => .raised e
      | .ok orderResult =>
        match orderResult with
        | .obj _ => .returned
        | _ => .raised .attributeError
    else
      match pyGet result "error" (.str "Unknown") with
      | .error e => .raised e
      | .ok errorCode =>
        match errorCode with
        | .arr _ => .raised .typeError
        | .obj _ => .raised .typeError
        | _ => .returned

/-- Embedding of execute_dca (lines 122-175). dcaAmount is the DCA_AMOUNT
global; wallet, tickerResp and orderResp are the parsed bodies returned by the
three HTTP endpoints; parseFloat models the float() builtin on strings. The
trace lists the requests issued, in order. The balance formatting at line 137
raises on a non-numeric THB value, before the comparison at line 139. -/
def execute_dca (dcaAmount : ℚ) (parseFloat : String → Option ℚ)
    (wallet tickerResp orderResp : JValue) : DcaRun :=
  match pyGet wallet "error" (.int 1) with
  | .error e => ⟨[.balanceQuery], .raised e⟩
  | .ok errv =>
    if !(pyEqZero errv) then ⟨[.balanceQuery], .returned⟩
    else
      match pyGet wallet "result" (.obj []) with
      | .error e => ⟨[.balanceQuery], .raised e⟩
      | .ok resv =>
        match pyGet resv "THB" (.int 0) with
        | .error e => ⟨[.balanceQuery], .raised e⟩
        | .ok thbv =>
          match pyNum? thbv with
          | none => ⟨[.balanceQuery], .raised (formatNumErr thbv)⟩
          | some thb =>
            if thb < dcaAmount then ⟨[.balanceQuery], .returned⟩
            else
              match get_ticker tickerResp with
              | .error e => ⟨[.balanceQuery, .tickerQuery], .raised e⟩
              | .ok ticker =>
                match dcaTickerLog parseFloat ticker with
                | .error e => ⟨[.balanceQuery, .tickerQuery], .raised e⟩
                | .ok _ =>
                  ⟨[.balanceQuery, .tickerQuery, .placeOrder dcaAmount],
                   dcaOrderLog orderResp⟩

/-- Four lowercase hex digits of n modulo 65536, for unicode escapes. -/
def uHex4 (n : ℕ) : List Char :=
  [hexDigitChar (n / 4096), hexDigitChar (n / 256), hexDigitChar (n / 16), hexDigitChar n]

/-- The backslash-u escape json.dumps emits for a non-ASCII code point,
using a surrogate pair above 0xFFFF. -/
def uEscape (n : ℕ) : List Char :=
  if n < 65536 then '\\' :: 'u' :: uHex4 n
  else
    let m := n - 65536
    ('\\' :: 'u' :: uHex4 (55296 + m / 1024)) ++ ('\\' :: 'u' :: uHex4 (56320 + m % 1024))

/-- Escaping of one character inside a JSON string, as json.dumps does with
its default ensure ascii setting. -/
def jsonEscapeChar (c : Char) : List Char :=
  if c = '"' then ['\\', '"']
  else if c = '\\' then ['\\', '\\']
  else if c = Char.ofNat 10 then ['\\', 'n']
  else if c = Char.ofNat 13 then ['\\', 'r']
  else if c = Char.ofNat 9 then ['\\', 't']
  else if c = Char.ofNat 8 then ['\\', 'b']
  else if c = Char.ofNat 12 then ['\\', 'f']
  else if 32 ≤ c.toNat && c.toNat ≤ 126 then [c]
  else uEscape c.toNat

/-- A JSON string literal with quotes and escapes, as json.dumps renders it. -/
def jsonEscapeStr (s : String) : String :=
  String.mk ('"' :: (s.toList.map jsonEscapeChar).flatten ++ ['"'])

mutual

/-- json.dumps with separators comma and colon; floatRepr stands for the
repr of a Python float. -/
def jsonDumps (floatRepr : ℚ → String) : JValue → String
  | .null => "null"
  | .bool b => if b then "true" else "false"
  | .int n => toString n
  | .float q => floatRepr q
  | .str s => jsonEscapeStr s
  | .arr items => "[" ++ jsonDumpsList floatRepr items ++ "]"
  | .obj fields => "\x7b" ++ jsonDumpsFields floatRepr fields ++ "\x7d"

/-- Comma-separated rendering of a JSON array body. -/
def jsonDumpsList (floatRepr : ℚ → String) : List JValue → String
  | [] => ""
  | [v] => jsonDumps floatRepr v
  | v :: rest => jsonDumps floatRepr v ++ "," ++ jsonDumpsList floatRepr rest

/-- Comma-separated rendering of a JSON object body with colon separators. -/
def jsonDumpsFields (floatRepr : ℚ → String) : List (String × JValue) → String
  | [] => ""
  | [(k, v)] => jsonEscapeStr k ++ ":" ++ jsonDumps floatRepr v
  | (k, v) :: rest => jsonEscapeStr k ++ ":" ++ jsonDumps floatRepr v ++ "," ++ jsonDumpsFields floatRepr rest

end

/-- An HTTP request as the bot assembles it. -/
structure Request where
  method : String
  url : String
  headers : List (String × String)
  body : String
deriving DecidableEq, Repr

/-- The BASE_URL global (line 19). -/
def BASE_URL : String := "https://api.bitkub.com"

/-- Embedding of get_headers (lines 53-61). -/
def get_headers (API_KEY : String) (timestamp : ℤ) (signature : String) :
    List (String × String) :=
  [("Accept", "application/json"),
   ("Content-Type", "application/json"),
   ("X-BTK-APIKEY", API_KEY),
   ("X-BTK-TIMESTAMP", toString timestamp),
   ("X-BTK-SIGN", signature)]

/-- The request get_wallet_balance issues (lines 64-74): POST to the wallet
path with the empty JSON object as body, signed over that payload. -/
def get_wallet_balance_request (apiKey apiSecret : String) (timestamp : ℤ) : Request :=
  let path := "/api/v3/market/wallet"
  let payload := "\x7b\x7d"
  let signature := get_signature apiSecret timestamp "POST" path payload
  ⟨"POST", BASE_URL ++ path, get_headers apiKey timestamp signature, payload⟩

/-- The request get_ticker issues (line 80): an unauthenticated GET. -/
def get_ticker_request : Request :=
  ⟨"GET", BASE_URL ++ "/api/v3/market/ticker", [], ""⟩

/-- Embedding of place_market_buy_order (lines 95-119): the payload dict is
serialized by json.dumps with comma and colon separators, the signature is
computed over that payload string, and the POST body is that same string. -/
def place_market_buy_order (floatRepr : ℚ → String) (apiKey apiSecret symbol : String)
    (timestamp : ℤ) (amount_thb : ℚ) : Request :=
  let path := "/api/v3/market/place-bid"
  let payload := jsonDumps floatRepr
    (.obj [("sym", .str symbol), ("amt", .float amount_thb),
           ("rat", .int 0), ("typ", .str "market")])
  let signature := get_signature apiSecret timestamp "POST" path payload
  ⟨"POST", BASE_URL ++ path, get_headers apiKey timestamp signature, payload⟩

/-- Python float values as float() can produce them from an environment
string: an exact rational, either infinity, or NaN. -/
inductive PyFloat where
  | val (q : ℚ)
  | inf
  | ninf
  | nan
deriving DecidableEq, Repr

/-- Whether a Python float is strictly less than the finite rational y:
NaN compares false, the infinities in the usual way (line 188). -/
def pyFloatLt (x : PyFloat) (y : ℚ) : Bool :=
  match x with
  | .val q => decide (q < y)
  | .inf => false
  | .ninf => true
  | .nan => false

/-- Whether a Python float is at least the finite rational y; false for NaN. -/
def pyFloatGe (x : PyFloat) (y : ℚ) : Bool :=
  match x with
  | .val q => decide (y ≤ q)
  | .inf => true
  | .ninf => false
  | .nan => false

/-- The module-level configuration globals (lines 20-24). API_KEY and
API_SECRET come from os.getenv and may be absent; DCA_AMOUNT is the float
the expression float(os.getenv(..)) produces, which can be NaN or infinite. -/
structure Config where
  API_KEY : Option String
  API_SECRET : Option String
  DCA_AMOUNT : PyFloat
  DCA_TIME : String
  SYMBOL : String
deriving DecidableEq, Repr

/-- Python falsiness of an optional string: None and the empty string. -/
def pyFalsyStr : Option String → Bool
  | none => true
  | some s => s.isEmpty

/-- Digit run of the int() builtin after the first digit: digits per the
digit-value table, with single underscores allowed between digits. -/
def digitsCore (digitVal : Char → Option ℕ) : ℕ → List Char → Option ℕ
  | acc, [] => some acc
  | acc, c :: rest =>
    match digitVal c with
    | some d => digitsCore digitVal (10 * acc + d) rest
    | none =>
      if c = '_' then
        match rest with
        | d :: rest2 =>
          match digitVal d with
          | some dv => digitsCore digitVal (10 * acc + dv) rest2
          | none => none
        | [] => none
      else none

/-- Strip leading and trailing whitespace per the whitespace test. -/
def pyStrip (isSpace : Char → Bool) (s : String) : List Char :=
  ((s.toList.dropWhile isSpace).reverse.dropWhile isSpace).reverse

/-- The int() builtin on a string: strip whitespace, optional sign, then a
digit run. The builtin accepts every Unicode decimal digit and Unicode
whitespace, so the digit-value table and the whitespace test are parameters;
asciiSpace and asciiDigitVal below give their ASCII fragments. -/
def pyIntParse (isSpace : Char → Bool) (digitVal : Char → Option ℕ)
    (s : String) : Option ℤ :=
  match pyStrip isSpace s with
  | [] => none
  | c :: rest =>
    if c = '-' then
      match rest with
      | d :: rest2 =>
        match digitVal d with
        | some dv => (digitsCore digitVal dv rest2).map (fun n => -(n : ℤ))
        | none => none
      | [] => none
    else if c = '+' then
      match rest with
      | d :: rest2 =>
        match digitVal d with
        | some dv => (digitsCore digitVal dv rest2).map (fun n => (n : ℤ))
        | none => none
      | [] => none
    else
      match digitVal c with
      | some dv => (digitsCore digitVal dv rest).map (fun n => (n : ℤ))
      | none => none

/-- The ASCII fragment of the whitespace test of str.strip. -/
def asciiSpace (c : Char) : Bool := c.isWhitespace

/-- The ASCII fragment of the Unicode decimal-digit value table. -/
def asciiDigitVal (c : Char) : Option ℕ :=
  if c.isDigit then some (c.toNat - 48) else none

/-- Split a character list on the colon, as Python str.split with a colon
separator does. -/
def splitColonChars : List Char → List (List Char)
  | [] => [[]]
  | c :: rest =>
    match splitColonChars rest with
    | [] => [[c]]
    | h :: t => if c = ':' then [] :: h :: t else (c :: h) :: t

/-- Python str.split on the colon. -/
def pySplitColon (s : String) : List String :=
  (splitColonChars s.toList).map String.mk

/-- The try/except block of validate_config (lines 191-198) as a predicate:
true when splitting DCA_TIME on the colon yields at least two parts, the
first two parse with int(), and the values are a valid hour and minute; an
IndexError or ValueError makes it false. -/
def timeOkCode (isSpace : Char → Bool) (digitVal : Char → Option ℕ)
    (t : String) : Bool :=
  match pySplitColon t with
  | [] => false
  | [_] => false
  | p0 :: p1 :: _ =>
    match pyIntParse isSpace digitVal p0, pyIntParse isSpace digitVal p1 with
    | some h, some m => decide (0 ≤ h ∧ h ≤ 23 ∧ 0 ≤ m ∧ m ≤ 59)
    | _, _ => false

/-- Embedding of validate_config (lines 178-200), producing the error list in
source order. -/
def validate_config (isSpace : Char → Bool) (digitVal : Char → Option ℕ)
    (cfg : Config) : List String :=
  (if pyFalsyStr cfg.API_KEY || cfg.API_KEY == some "your_api_key_here"
   then ["BITKUB_API_KEY is not set"] else []) ++
  (if pyFalsyStr cfg.API_SECRET || cfg.API_SECRET == some "your_api_secret_here"
   then ["BITKUB_API_SECRET is not set"] else []) ++
  (if pyFloatLt cfg.DCA_AMOUNT 10
   then ["DCA_AMOUNT_THB must be at least 10 THB"] else []) ++
  (if timeOkCode isSpace digitVal cfg.DCA_TIME then []
   else ["DCA_TIME must be in HH:MM format (e.g., 09:00)"])

/-- The externally visible actions of main before its polling loop. -/
inductive MainEvent where
  | testBalanceQuery
  | scheduleRegister (time : String)
deriving DecidableEq, Repr

/-- Embedding of main up to the polling loop (lines 203-248): after a failed
validation it returns with no request issued and nothing scheduled; otherwise
it issues the test balance query, returns early on a failed or malformed
response, and else registers the daily job. The boolean records whether the
polling loop is entered. -/
def mainStartup (isSpace : Char → Bool) (digitVal : Char → Option ℕ)
    (cfg : Config) (wallet : JValue) : List MainEvent × Bool :=
  if validate_config isSpace digitVal cfg = [] then
    let evs := [MainEvent.testBalanceQuery]
    match pyGet wallet "error" (.int 1) with
    | .error _ => (evs, false)
    | .ok errv =>
      if !(pyEqZero errv) then (evs, false)
      else
        match pyGet wallet "result" (.obj []) with
        | .error _ => (evs, false)
        | .ok resv =>
          match pyGet resv "THB" (.int 0) with
          | .error _ => (evs, false)
          | .ok thbv =>
            match pyGet resv "BTC" (.int 0) with
            | .error _ => (evs, false)
            | .ok btcv =>
              match pyNum? thbv, pyNum? btcv with
              | some _, some _ => (evs ++ [.scheduleRegister cfg.DCA_TIME], true)
              | _, _ => (evs, false)
  else ([], false)

/-- State of the polling loop of main (lines 251-254) together with the one
daily job registered at line 241. Time is in seconds. Modelled from the spec:
the schedule library itself is not part of src/, so its daily-job semantics
(run when the scheduled time has been reached, then move the scheduled time
one day later) are taken from the spec sentence about the scheduler loop. -/
structure SchedState where
  now : ℕ
  nextRun : ℕ
  runs : List ℕ
deriving DecidableEq, Repr

/-- One iteration of the polling loop: run the job if its time has come
(rescheduling it one day later), then sleep 60 seconds. Run times are
recorded newest first. -/
def schedStep (s : SchedState) : SchedState :=
  if s.nextRun ≤ s.now then
    ⟨s.now + 60, s.nextRun + 86400, s.now :: s.runs⟩
  else
    ⟨s.now + 60, s.nextRun, s.runs⟩

/-- n iterations of the polling loop. -/
def schedRun : ℕ → SchedState → SchedState
  | 0, s => s
  | n + 1, s => schedRun n (schedStep s)

theorem execute_dca_trace_cases (dca : ℚ) (pf : String → Option ℚ) (w t o : JValue) :
    (execute_dca dca pf w t o).trace = [.balanceQuery] ∨
    (execute_dca dca pf w t o).trace = [.balanceQuery, .tickerQuery] ∨
    (execute_dca dca pf w t o).trace =
      [.balanceQuery, .tickerQuery, .placeOrder dca] := by
  unfold execute_dca
  repeat' split
  all_goals
    first
    | exact Or.inl rfl
    | exact Or.inr (Or.inl rfl)
    | exact Or.inr (Or.inr rfl)

/-- C1: get_signature returns the lowercase hexadecimal HMAC-SHA256 digest,
keyed with the UTF-8 encoding of API_SECRET, of the UTF-8 encoding of the
concatenation of the decimal timestamp, the method, the path and the payload,
in that order; every character of the result is a lowercase hex digit. -/
theorem c1_get_signature_spec (secret : String) (ts : ℤ) (method path payload : String) :
    get_signature secret ts method path payload =
      bytesToHex (hmacSha256 (utf8Bytes secret)
        (utf8Bytes (toString ts ++ method ++ path ++ payload))) ∧
    (get_signature secret ts method path payload).toList.all
      (fun c => lowerHexChars.contains c) = true :=
  ⟨rfl, bytesToHex_lower _⟩

/-- C2: every invocation of execute_dca issues its requests in the fixed order
balance query, then ticker query, then place order, stopping early but never
reordering, repeating or skipping forward; when an order is placed its amount
is exactly the configured DCA amount. -/
theorem c2_execute_dca_sequence (dca : ℚ) (pf : String → Option ℚ) (w t o : JValue) :
    (execute_dca dca pf w t o).trace = [.balanceQuery] ∨
    (execute_dca dca pf w t o).trace = [.balanceQuery, .tickerQuery] ∨
    (execute_dca dca pf w t o).trace =
      [.balanceQuery, .tickerQuery, .placeOrder dca] :=
  execute_dca_trace_cases dca pf w t o

/-- Whether a call is the balance query. -/
def isBalanceQuery : ApiCall → Bool
  | .balanceQuery => true
  | _ => false

/-- Whether a call is the ticker query. -/
def isTickerQuery : ApiCall → Bool
  | .tickerQuery => true
  | _ => false

/-- Whether a call is a place-order request. -/
def isPlaceOrder : ApiCall → Bool
  | .placeOrder _ => true
  | _ => false

/-- C7: within one invocation of execute_dca each request kind is issued at
most once; there is no retry of any step. -/
theorem c7_no_retry (dca : ℚ) (pf : String → Option ℚ) (w t o : JValue) :
    (execute_dca dca pf w t o).trace.countP isBalanceQuery ≤ 1 ∧
    (execute_dca dca pf w t o).trace.countP isTickerQuery ≤ 1 ∧
    (execute_dca dca pf w t o).trace.countP isPlaceOrder ≤ 1 := by
  rcases execute_dca_trace_cases dca pf w t o with h | h | h <;>
    rw [h] <;>
    simp [List.countP_cons, isBalanceQuery, isTickerQuery, isPlaceOrder]

/-- C3: for a wallet response object whose error field is absent or non-zero,
or whose reported THB balance is a number strictly below the DCA amount,
execute_dca returns normally right after the balance query: no ticker request
and no order request is issued. -/
theorem c3_failed_balance_no_order (dca : ℚ) (pf : String → Option ℚ)
    (wf : List (String × JValue)) (t o : JValue)
    (h : pyEqZero ((assocLookup wf "error").getD (.int 1)) = false ∨
         ∃ rf : List (String × JValue), ∃ q : ℚ,
           (assocLookup wf "result").getD (.obj []) = .obj rf ∧
           pyNum? ((assocLookup rf "THB").getD (.int 0)) = some q ∧
           q < dca) :
    execute_dca dca pf (.obj wf) t o = ⟨[.balanceQuery], .returned⟩ := by
  rcases h with ha | ⟨rf, q, hres, hthb, hlt⟩
  · simp [execute_dca, pyGet, ha]
  · simp [execute_dca, pyGet, hres, hthb, hlt]

theorem c3_witness :
    pyEqZero ((assocLookup [("error", JValue.int 1)] "error").getD (.int 1)) = false ∧
    execute_dca 100 (fun _ => none) (.obj [("error", .int 1)]) .null .null =
      ⟨[.balanceQuery], .returned⟩ :=
  ⟨rfl, c3_failed_balance_no_order 100 (fun _ => none) [("error", .int 1)] .null .null
    (Or.inl rfl)⟩

/-- C9: when the balance check passes and the ticker result lacks the THB_BTC
key, execute_dca skips the price logging but still places the market buy order
for the DCA amount. -/
theorem c9_missing_quote_still_buys (dca : ℚ) (pf : String → Option ℚ)
    (wf rf tf : List (String × JValue)) (t o : JValue) (q : ℚ)
    (herr : pyEqZero ((assocLookup wf "error").getD (.int 1)) = true)
    (hres : (assocLookup wf "result").getD (.obj []) = .obj rf)
    (hthb : pyNum? ((assocLookup rf "THB").getD (.int 0)) = some q)
    (hge : dca ≤ q)
    (ht : get_ticker t = .ok (.obj tf))
    (hmiss : assocLookup tf "THB_BTC" = none) :
    (execute_dca dca pf (.obj wf) t o).trace =
      [.balanceQuery, .tickerQuery, .placeOrder dca] := by
  simp [execute_dca, pyGet, herr, hres, hthb, ht, hmiss, dcaTickerLog, not_lt.mpr hge]

theorem c9_witness :
    (100 : ℚ) ≤ 500 ∧
    (execute_dca 100 (fun _ => none)
      (.obj [("error", .int 0), ("result", .obj [("THB", .float 500)])])
      (.arr []) .null).trace = [.balanceQuery, .tickerQuery, .placeOrder 100] :=
  ⟨by norm_num,
   c9_missing_quote_still_buys 100 (fun _ => none)
     [("error", .int 0), ("result", .obj [("THB", .float 500)])]
     [("THB", .float 500)] [] (.arr []) .null 500
     rfl rfl rfl (by norm_num) rfl rfl⟩

/-- C4: place_market_buy_order sends a POST to the place-bid path whose body is
exactly the JSON object with keys sym, amt, rat 0, typ market, serialized with
comma and colon separators, and its signature is computed over that exact
payload string. -/
theorem c4_place_bid_request (fr : ℚ → String) (apiKey apiSecret symbol : String)
    (ts : ℤ) (a : ℚ) :
    (place_market_buy_order fr apiKey apiSecret symbol ts a).body =
      "\x7b\"sym\":" ++ jsonEscapeStr symbol ++ ",\"amt\":" ++ fr a ++
        ",\"rat\":0,\"typ\":\"market\"\x7d" ∧
    (place_market_buy_order fr apiKey apiSecret symbol ts a).method = "POST" ∧
    (place_market_buy_order fr apiKey apiSecret symbol ts a).url =
      BASE_URL ++ "/api/v3/market/place-bid" ∧
    (place_market_buy_order fr apiKey apiSecret symbol ts a).headers =
      get_headers apiKey ts (get_signature apiSecret ts "POST" "/api/v3/market/place-bid"
        ((place_market_buy_order fr apiKey apiSecret symbol ts a).body)) := by
  have e1 : ("\x7b\"sym\":" : String) = "\x7b" ++ jsonEscapeStr "sym" ++ ":" := rfl
  have e2 : (",\"amt\":" : String) = "," ++ jsonEscapeStr "amt" ++ ":" := rfl
  have e3 : (",\"rat\":0,\"typ\":\"market\"\x7d" : String) =
      "," ++ jsonEscapeStr "rat" ++ ":" ++ toString (0 : ℤ) ++ "," ++
      jsonEscapeStr "typ" ++ ":" ++ jsonEscapeStr "market" ++ "\x7d" := rfl
  refine ⟨?_, rfl, rfl, rfl⟩
  rw [e1, e2, e3]
  simp [place_market_buy_order, jsonDumps, jsonDumpsFields, String.append_assoc]

/-- Whether the string s starts with the scheme string pre. -/
def startsWithScheme (pre s : String) : Bool :=
  pre.toList.isPrefixOf s.toList

/-- C5 counterexample: the claim says the three requests go over plain HTTP,
but the wallet request URL does not begin with the plain http scheme. -/
theorem c5_counterexample :
    startsWithScheme "http://" (get_wallet_balance_request "key" "secret" 0).url = false := rfl

/-- C5 amended: the client issues exactly three kinds of request, a balance
query, a price query and a place-order request, and their URLs use the https
scheme (TLS), not plain HTTP. -/
theorem c5_three_requests_https (fr : ℚ → String) (apiKey apiSecret symbol : String)
    (ts : ℤ) (a dca : ℚ) (pf : String → Option ℚ) (w t o : JValue) :
    startsWithScheme "https://" (get_wallet_balance_request apiKey apiSecret ts).url = true ∧
    startsWithScheme "https://" get_ticker_request.url = true ∧
    startsWithScheme "https://" (place_market_buy_order fr apiKey apiSecret symbol ts a).url = true ∧
    (execute_dca dca pf w t o).trace.all
      (fun e => isBalanceQuery e || isTickerQuery e || isPlaceOrder e) = true := by
  refine ⟨rfl, rfl, rfl, ?_⟩
  rcases execute_dca_trace_cases dca pf w t o with h | h | h <;> rw [h] <;> rfl

/-- Each recorded run time (newest first) lies inside the 60-second window
that starts at its own daily mark: the k-th run counted from the start lies
in the half-open window from r0 plus k days on. -/
def runsWindowsRev (r0 : ℕ) : List ℕ → Bool
  | [] => true
  | t :: rest =>
    (decide (r0 + 86400 * rest.length ≤ t) &&
     decide (t < r0 + 86400 * rest.length + 60)) &&
    runsWindowsRev r0 rest

/-- Invariant of the polling loop: the pending run time is the daily mark
following the recorded runs, the clock never gets more than one sleep past
the pending mark, and all recorded runs sit in their daily windows. -/
structure SchedInv (r0 : ℕ) (s : SchedState) : Prop where
  nextEq : s.nextRun = r0 + 86400 * s.runs.length
  nowLt : s.now < s.nextRun + 60
  windows : runsWindowsRev r0 s.runs = true

theorem schedStep_inv (r0 : ℕ) (s : SchedState) (h : SchedInv r0 s) :
    SchedInv r0 (schedStep s) := by
  obtain ⟨h1, h2, h3⟩ := h
  unfold schedStep
  split
  case isTrue hle =>
    refine ⟨?_, ?_, ?_⟩
    · dsimp only
      simp only [List.length_cons]
      omega
    · dsimp only
      omega
    · dsimp only
      simp only [runsWindowsRev, Bool.and_eq_true, decide_eq_true_eq]
      exact ⟨⟨by omega, by omega⟩, h3⟩
  case isFalse hgt =>
    exact ⟨h1, by dsimp only; omega, h3⟩

theorem schedRun_inv (r0 : ℕ) : ∀ (n : ℕ) (s : SchedState),
    SchedInv r0 s → SchedInv r0 (schedRun n s)
  | 0, _, h => h
  | n + 1, s, h => schedRun_inv r0 n (schedStep s) (schedStep_inv r0 s h)

theorem schedRun_now : ∀ (n : ℕ) (s : SchedState),
    (schedRun n s).now = s.now + 60 * n
  | 0, s => by simp [schedRun]
  | n + 1, s => by
    rw [schedRun, schedRun_now n (schedStep s)]
    unfold schedStep
    split <;> simp <;> omega

/-- C6: in the modelled scheduler loop started with the clock before the first
daily mark r0 of the configured time, every iteration advances the clock by
exactly the 60-second sleep, and after any number of iterations the k-th
invocation of the workflow lies within 60 seconds after the mark r0 plus k
days: the workflow runs at most once per scheduled day, at the configured
time up to polling granularity. -/
theorem c6_scheduler_daily (r0 now0 n : ℕ) (hinit : now0 < r0) :
    (schedRun n ⟨now0, r0, []⟩).now = now0 + 60 * n ∧
    runsWindowsRev r0 (schedRun n ⟨now0, r0, []⟩).runs = true :=
  ⟨schedRun_now n ⟨now0, r0, []⟩,
   (schedRun_inv r0 n ⟨now0, r0, []⟩
     ⟨by simp, by dsimp only; omega, rfl⟩).windows⟩

theorem c6_witness :
    (0 < 100 ∧ (schedRun 3 ⟨0, 100, []⟩).now = 0 + 60 * 3) ∧
    runsWindowsRev 100 (schedRun 3 ⟨0, 100, []⟩).runs = true :=
  ⟨⟨by decide, (c6_scheduler_daily 100 0 3 (by decide)).1⟩,
   (c6_scheduler_daily 100 0 3 (by decide)).2⟩

/-- Values the Python in operator accepts as containers. -/
def isContainer : JValue → Bool
  | .str _ => true
  | .arr _ => true
  | .obj _ => true
  | _ => false

/-- Whether a symbol value contains BTC in the sense of the Python in
operator: substring of a string, member of a list, key of a dict. Written
from the claim's words for C8. -/
def symbolHasBtc : JValue → Bool
  | .str s => containsSub ("BTC".toList) s.toList
  | .arr xs =>
    xs.any (fun it =>
      match it with
      | .str s => decide (s = "BTC")
      | _ => false)
  | .obj gs => (assocLookup gs "BTC").isSome
  | _ => false

/-- Whether an element matches the claim's rule: its symbol value (the empty
string when absent) contains BTC. Written from the claim's words for C8. -/
def tickerMatches : JValue → Bool
  | .obj fs => symbolHasBtc ((assocLookup fs "symbol").getD (.str ""))
  | _ => false

/-- The first element matching the claim's rule. Written from the claim's
words for C8. -/
def findBtcSpec : List JValue → Option JValue
  | [] => none
  | item :: rest => if tickerMatches item then some item else findBtcSpec rest

/-- Wrap an optional matching element the way the claim describes. -/
def wrapBtc : Option JValue → JValue
  | some item => .obj [("THB_BTC", item)]
  | none => .obj []

/-- The result shape C8 claims for get_ticker, written from the claim's
words: a list is reduced to the first BTC match wrapped under THB_BTC or to
the empty dict, a dict passes through, anything else becomes the empty dict. -/
def get_ticker_spec : JValue → JValue
  | .arr items => wrapBtc (findBtcSpec items)
  | .obj fs => .obj fs
  | _ => .obj []

/-- A list element the scan can process without raising: a dict whose symbol
value (the empty string when absent) is a container of the in operator. -/
def tickerItemSafe : JValue → Bool
  | .obj fs => isContainer ((assocLookup fs "symbol").getD (.str ""))
  | _ => false

/-- Responses on which get_ticker cannot raise: lists of safe elements, and
every non-list value. -/
def tickerRespSafe : JValue → Bool
  | .arr items => items.all tickerItemSafe
  | _ => true

theorem pyInStr_btc_ok (v : JValue) (h : isContainer v = true) :
    pyInStr "BTC" v = .ok (symbolHasBtc v) := by
  cases v <;> first | rfl | simp [isContainer] at h

theorem tickerScan_safe : ∀ (items : List JValue),
    items.all tickerItemSafe = true →
    tickerScan items = .ok (wrapBtc (findBtcSpec items))
  | [], _ => rfl
  | item :: rest, h => by
    simp only [List.all_cons, Bool.and_eq_true] at h
    obtain ⟨hi, hrest⟩ := h
    cases item with
    | obj fs =>
      have hc : isContainer ((assocLookup fs "symbol").getD (.str "")) = true := by
        simpa [tickerItemSafe] using hi
      simp only [tickerScan, findBtcSpec, tickerMatches, pyInStr_btc_ok _ hc]
      split
      · simp [wrapBtc]
      · exact tickerScan_safe rest hrest
    | null => simp [tickerItemSafe] at hi
    | bool b => simp [tickerItemSafe] at hi
    | int n => simp [tickerItemSafe] at hi
    | float q => simp [tickerItemSafe] at hi
    | str sv => simp [tickerItemSafe] at hi
    | arr xs => simp [tickerItemSafe] at hi

/-- C8 counterexample: on the response list containing the number 1, the scan
calls a dict method on a non-dict and raises AttributeError, so get_ticker
does not return a dict for every shape of response. -/
theorem c8_counterexample :
    get_ticker (.arr [.int 1]) = .error .attributeError := rfl

/-- C8 amended: get_ticker returns a dict for every response that is not a
list and for every list whose elements are dicts with symbol values (the
empty string when absent) that are strings, lists or dicts: such a list
yields the first element whose symbol value contains BTC, in the sense of
the in operator, wrapped under the THB_BTC key, or the empty dict when none
matches; a dict response is returned unchanged; any other response type
yields the empty dict. A list element that is not a dict, or whose symbol
value is a number, a boolean or null, makes the scan raise instead. -/
theorem c8_get_ticker_shape (v : JValue) (h : tickerRespSafe v = true) :
    get_ticker v = .ok (get_ticker_spec v) := by
  cases v with
  | arr items =>
    simp only [tickerRespSafe] at h
    simpa only [get_ticker, get_ticker_spec] using tickerScan_safe items h
  | null => rfl
  | bool b => rfl
  | int n => rfl
  | float q => rfl
  | str s => rfl
  | obj fs => rfl

theorem c8_witness :
    tickerRespSafe (.arr [.obj [("symbol", .str "THB_BTC"), ("last", .int 5)]]) = true ∧
    get_ticker (.arr [.obj [("symbol", .str "THB_BTC"), ("last", .int 5)]]) =
      .ok (get_ticker_spec (.arr [.obj [("symbol", .str "THB_BTC"), ("last", .int 5)]])) :=
  ⟨rfl, c8_get_ticker_shape (.arr [.obj [("symbol", .str "THB_BTC"), ("last", .int 5)]]) rfl⟩

/-- The time condition as the claim words it for C10: the split has at least
two parts and the first two parse as integers in the hour and minute ranges. -/
def timeOkSpec (isSpace : Char → Bool) (digitVal : Char → Option ℕ)
    (t : String) : Bool :=
  match pySplitColon t with
  | p0 :: p1 :: _ =>
    match pyIntParse isSpace digitVal p0, pyIntParse isSpace digitVal p1 with
    | some h, some m =>
      decide (0 ≤ h) && decide (h ≤ 23) && decide (0 ≤ m) && decide (m ≤ 59)
    | _, _ => false
  | _ => false

theorem timeOk_eq (isSpace : Char → Bool) (digitVal : Char → Option ℕ) (t : String) :
    timeOkCode isSpace digitVal t = timeOkSpec isSpace digitVal t := by
  unfold timeOkCode timeOkSpec
  rcases pySplitColon t with _ | ⟨p0, _ | ⟨p1, rest⟩⟩
  · rfl
  · rfl
  rcases pyIntParse isSpace digitVal p0 with _ | h <;>
    rcases pyIntParse isSpace digitVal p1 with _ | m <;>
    simp [Bool.decide_and, Bool.and_assoc]

/-- The configuration condition with the claim's original wording for the
amount, DCA_AMOUNT at least 10. The counterexample for C10 shows it differs
from the program on a NaN amount. -/
def configAtLeastOk (isSpace : Char → Bool) (digitVal : Char → Option ℕ)
    (cfg : Config) : Bool :=
  (!pyFalsyStr cfg.API_KEY && !(cfg.API_KEY == some "your_api_key_here")) &&
  (!pyFalsyStr cfg.API_SECRET && !(cfg.API_SECRET == some "your_api_secret_here")) &&
  pyFloatGe cfg.DCA_AMOUNT 10 &&
  timeOkSpec isSpace digitVal cfg.DCA_TIME

/-- The configuration-validity condition with the amended wording for C10:
the API key is set and not the placeholder, the API secret likewise, the DCA
amount is not less than 10, and the DCA time splits into a valid hour and
minute. -/
def configSpecOk (isSpace : Char → Bool) (digitVal : Char → Option ℕ)
    (cfg : Config) : Bool :=
  (!pyFalsyStr cfg.API_KEY && !(cfg.API_KEY == some "your_api_key_here")) &&
  (!pyFalsyStr cfg.API_SECRET && !(cfg.API_SECRET == some "your_api_secret_here")) &&
  !pyFloatLt cfg.DCA_AMOUNT 10 &&
  timeOkSpec isSpace digitVal cfg.DCA_TIME

/-- C10 counterexample: with a NaN DCA amount and an otherwise valid
configuration, validate_config returns the empty list, because NaN is not
less than 10 at line 188, while the claim's condition that DCA_AMOUNT is at
least 10 is false of NaN; so the claimed equivalence fails on the program. -/
theorem c10_counterexample :
    validate_config asciiSpace asciiDigitVal
      ⟨some "k", some "s", PyFloat.nan, "09:00", "btc_thb"⟩ = [] ∧
    configAtLeastOk asciiSpace asciiDigitVal
      ⟨some "k", some "s", PyFloat.nan, "09:00", "btc_thb"⟩ = false := by
  constructor
  · decide
  · decide

/-- C10 amended: validate_config returns the empty error list exactly when
the API key is set and differs from the placeholder, the API secret
likewise, the DCA amount is not less than 10 (which a NaN amount satisfies
without being at least 10), and the DCA time split on the colon has at least
two parts whose first two parse as integers in the hour and minute ranges;
and whenever the list is non-empty, main returns before issuing any network
request or registering any schedule. The Unicode digit-value table and
whitespace test of int() are parameters. -/
theorem c10_validate_config (isSpace : Char → Bool) (digitVal : Char → Option ℕ)
    (cfg : Config) (w : JValue) :
    (validate_config isSpace digitVal cfg = [] ↔
      configSpecOk isSpace digitVal cfg = true) ∧
    (validate_config isSpace digitVal cfg ≠ [] →
      mainStartup isSpace digitVal cfg w = ([], false)) := by
  constructor
  · unfold validate_config configSpecOk
    rw [timeOk_eq]
    simp [List.append_eq_nil, and_assoc]
  · intro h
    unfold mainStartup
    rw [if_neg h]

theorem c10_witness :
    validate_config asciiSpace asciiDigitVal ⟨none, none, PyFloat.val 0, "", ""⟩ ≠ [] ∧
    mainStartup asciiSpace asciiDigitVal ⟨none, none, PyFloat.val 0, "", ""⟩ .null =
      ([], false) :=
  ⟨by decide,
   (c10_validate_config asciiSpace asciiDigitVal
     ⟨none, none, PyFloat.val 0, "", ""⟩ .null).2 (by decide)⟩
